import Mathlib

/-!
Shallow embedding of `src/target_functions/relax_fit.c`, the C binding of the
relaxation curve-fitting module, together with models of the two numeric
helpers (`chi2` from `c_chi2.h` and `exponential` from `exponential.h`) whose
implementation files are not part of the repository slice and are therefore
modelled from the specification.

Machine doubles are embedded as real numbers; the single-precision `"f"`
conversion performed by `Py_BuildValue` at the Python boundary is outside this
embedding.  The process-wide C globals (`num_params`, `num_times`, `params`,
`values`, `sd`, `relax_times`, `scaling_matrix`, `back_calc`) are gathered in
one explicit `GlobalState` record that every entry point reads and writes, so
that the binding's reliance on shared mutable globals is visible in the types.
-/

namespace RelaxFit

noncomputable section

/-- Error taxonomy of the specification (§7).  The C binding never signals any
of these conditions; they appear in the return types of the embedded entry
points so that the absence of failure is expressible and refutable. -/
inductive FitError where
  | invalidDimension
  | invalidArgument
  | notEvaluated
  deriving DecidableEq, Repr

/-- A value handed back to Python: `Py_BuildValue "f"` produces a float
scalar, `PyList_New`/`PyList_SetItem` produce a list of floats. -/
inductive PyValue where
  | float (x : ℝ)
  | floatList (xs : List ℝ)

/-- The process-wide global state of `relax_fit.c`: the dimensions, the five
malloc-ed arrays, and the statically allocated `back_calc` buffer (modelled as
a total map on indices because the static C array outlives every setup call
and is zero-initialised at process start). -/
structure GlobalState where
  num_params : ℕ
  num_times : ℕ
  params : List ℝ
  values : List ℝ
  sd : List ℝ
  relax_times : List ℝ
  scaling_matrix : List ℝ
  back_calc : ℕ → ℝ

/-- The state of a freshly loaded process: the integer globals are
zero-initialised static storage and no array has been allocated;
the static `back_calc` buffer holds zeros. -/
def initState : GlobalState :=
  { num_params := 0
    num_times := 0
    params := []
    values := []
    sd := []
    relax_times := []
    scaling_matrix := []
    back_calc := fun _ => 0 }

/-- The arguments of the `setup` entry point, already past
`PyArg_ParseTupleAndKeywords` (two ints and four Python sequences,
each sequence embedded as the list of its float values). -/
structure SetupArgs where
  num_params : ℕ
  num_times : ℕ
  values : List ℝ
  sd : List ℝ
  relax_times : List ℝ
  scaling_matrix : List ℝ

/-- The global state produced by `setup`: each copy loop reads exactly
`num_times` (resp. `num_params`) elements of the incoming sequence with
`PySequence_GetItem`, performing no length or value validation.  An
out-of-range read makes `PyFloat_AsDouble` return `-1.0` (with an ignored
pending exception), which the `getD` default records; surplus elements of a
longer sequence are never read.  The previous state is discarded except for
the static `back_calc` buffer, which `setup` does not touch. -/
def setupState (g : GlobalState) (a : SetupArgs) : GlobalState :=
  { num_params := a.num_params
    num_times := a.num_times
    -- `params` is malloc-ed but not initialised by setup; it is fully
    -- overwritten by `func` before any read, so its content here is a
    -- placeholder.
    params := List.replicate a.num_params 0
    values := List.ofFn fun i : Fin a.num_times => a.values.getD i (-1)
    sd := List.ofFn fun i : Fin a.num_times => a.sd.getD i (-1)
    relax_times := List.ofFn fun i : Fin a.num_times => a.relax_times.getD i (-1)
    scaling_matrix := List.ofFn fun i : Fin a.num_params => a.scaling_matrix.getD i (-1)
    back_calc := g.back_calc }

/-- The `setup` entry point.  For well-typed arguments it always succeeds:
the C code contains no dimension, sign or finiteness checks and falls
through to `return Py_None`. -/
def setup (g : GlobalState) (a : SetupArgs) : Except FitError GlobalState :=
  .ok (setupState g a)

/-- Modelled from the spec: `exponential.c` is not under `src/`, only its
call sites are.  Per §4.2 the two-parameter mono-exponential model writes
`back_calc[i] = params[0] * exp(-params[1] * times[i])` for `0 <= i < n`. -/
def exponential (params times : List ℝ) (n : ℕ) : List ℝ :=
  (List.range n).map fun i =>
    params.getD 0 0 * Real.exp (-(params.getD 1 0) * times.getD i 0)

/-- Modelled from the spec: `c_chi2.c` is not under `src/`, only its call
site is.  Per §4.3 the reducer accumulates
`((values[i] - back_calc[i]) / sd[i])^2` over `i = 0, ..., n-1` in
index-ascending order. -/
def chi2 (values sd back_calc : List ℝ) (n : ℕ) : ℝ :=
  (List.range n).foldl
    (fun acc i => acc + ((values.getD i 0 - back_calc.getD i 0) / sd.getD i 0) ^ 2) 0

/-- The parameter-scaling loop at the head of `func`: for `i < num_params`,
`params[i] = PyFloat_AsDouble(PySequence_GetItem(params_arg, i)) *
scaling_matrix[i]`. -/
def scaledParams (g : GlobalState) (params_arg : List ℝ) : List ℝ :=
  List.ofFn fun i : Fin g.num_params =>
    params_arg.getD i (-1) * g.scaling_matrix.getD i 0

/-- The state mutation performed by `func`: the global `params` array is
overwritten with the scaled parameters and `exponential` overwrites the
first `num_times` entries of the static `back_calc` buffer. -/
def funcState (g : GlobalState) (params_arg : List ℝ) : GlobalState :=
  { g with
    params := scaledParams g params_arg
    back_calc := fun i =>
      if i < g.num_times then
        (exponential (scaledParams g params_arg) g.relax_times g.num_times).getD i 0
      else g.back_calc i }

/-- The `func` entry point: scale the incoming parameters, call
`exponential(params, relax_times, back_calc, num_times)`, then return
`chi2(values, sd, back_calc, num_times)`.  The pair is the mutated global
state and the double handed to `Py_BuildValue`. -/
def func (g : GlobalState) (params_arg : List ℝ) : GlobalState × ℝ :=
  (funcState g params_arg,
   chi2 g.values g.sd (exponential (scaledParams g params_arg) g.relax_times g.num_times)
     g.num_times)

/-- The `dfunc` entry point.  After parsing its argument it calls
`exponential` through an uninitialised local `params` pointer (undefined
behaviour whose effect on `back_calc` is not modelled) and falls through to
`return NULL`, i.e. it raises a Python exception and produces no gradient. -/
def dfunc (_g : GlobalState) (_params_arg : List ℝ) : Option (List ℝ) :=
  none

/-- The `d2func` entry point: `return Py_BuildValue("f", 0.0)` — a constant
scalar, never a matrix. -/
def d2func (_g : GlobalState) (_params_arg : List ℝ) : PyValue :=
  PyValue.float 0

/-- The `back_calc_I` entry point: build a fresh Python list of the first
`num_times` entries of the static `back_calc` buffer.  No evaluation check
of any kind is performed. -/
def back_calc_I (g : GlobalState) : Except FitError (List ℝ) :=
  .ok (List.ofFn fun i : Fin g.num_times => g.back_calc i)

/-- Folding addition of `f` over `List.range n` is the `Finset.range` sum. -/
theorem foldl_range_add (f : ℕ → ℝ) (n : ℕ) (init : ℝ) :
    (List.range n).foldl (fun acc i => acc + f i) init
      = init + ∑ i in Finset.range n, f i := by
  induction n generalizing init with
  | zero => simp
  | succ n ih =>
      rw [List.range_succ, List.foldl_append, ih, Finset.sum_range_succ]
      simp [add_assoc]

/-- The `chi2` reducer evaluates to the closed-form chi-squared sum. -/
theorem chi2_eq_sum (values sd back_calc : List ℝ) (n : ℕ) :
    chi2 values sd back_calc n
      = ∑ i in Finset.range n,
          ((values.getD i 0 - back_calc.getD i 0) / sd.getD i 0) ^ 2 := by
  unfold chi2
  rw [foldl_range_add]
  simp

/-- C2: for every `n ≥ 1` and arrays of length `n` with all `sd[i]` nonzero,
the chi-squared reducer returns `∑ i < n, ((values[i]-back_calc[i])/sd[i])^2`,
accumulated by a left fold over the indices `0, 1, ..., n-1` in ascending
order. -/
theorem chi2_correct (values sd back_calc : List ℝ) (n : ℕ)
    (hn : 1 ≤ n) (hv : values.length = n) (hs : sd.length = n)
    (hb : back_calc.length = n) (hsd : ∀ i < n, sd.getD i 0 ≠ 0) :
    chi2 values sd back_calc n
      = ∑ i in Finset.range n,
          ((values.getD i 0 - back_calc.getD i 0) / sd.getD i 0) ^ 2 :=
  chi2_eq_sum values sd back_calc n

/-- Witness for C2 at `n = 1`, `values = [3]`, `sd = [1]`, `back_calc = [1]`:
the reducer returns `((3-1)/1)^2 = 4`. -/
theorem chi2_correct_witness :
    chi2 [(3 : ℝ)] [1] [1] 1
      = ∑ i in Finset.range 1,
          (([(3 : ℝ)].getD i 0 - [(1 : ℝ)].getD i 0) / [(1 : ℝ)].getD i 0) ^ 2 := by
  have h := chi2_correct [(3 : ℝ)] [1] [1] 1 le_rfl rfl rfl rfl ?_
  · exact h
  · intro i hi
    interval_cases i
    norm_num

/-- Length of the modelled `exponential` output: one entry per time point. -/
theorem exponential_length (params times : List ℝ) (n : ℕ) :
    (exponential params times n).length = n := by
  simp [exponential]

/-- Reading a list of length `n` back out of `getD` over `Fin n`
reconstructs the list. -/
theorem ofFn_getD_eq (l : List ℝ) (n : ℕ) (h : l.length = n) :
    (List.ofFn fun i : Fin n => l.getD i 0) = l := by
  subst h
  apply List.ext_getElem
  · simp
  · intro i h1 h2
    simp [List.getD_eq_getElem?_getD, List.getElem?_eq_getElem h2]

/-- The session state of the spec's worked example (§8): `num_params = 2`,
`num_times = 3`, `relax_times = [0,1,2]`, `values = [10, 6.07, 3.68]`,
`sd = [0.1, 0.1, 0.1]`, `scaling_matrix = [1, 1]`, with the static
`back_calc` buffer still zero-initialised. -/
def demoState : GlobalState :=
  { num_params := 2
    num_times := 3
    params := [0, 0]
    values := [10, 6.07, 3.68]
    sd := [0.1, 0.1, 0.1]
    relax_times := [0, 1, 2]
    scaling_matrix := [1, 1]
    back_calc := fun _ => 0 }

/-- C1: `func` multiplies each raw parameter by the corresponding
`scaling_matrix` element, overwrites the `back_calc` buffer with the model
evaluator's output at the scaled parameters, and returns the chi-squared
reducer applied to `(values, sd, back_calc, num_times)`; a second call with
different parameters on the resulting state returns the same value as a
first call would, so the session is reusable without reconstruction. -/
theorem func_pipeline (g : GlobalState) (a b : List ℝ) :
    (func g a).2
      = chi2 g.values g.sd
          (exponential (scaledParams g a) g.relax_times g.num_times) g.num_times
    ∧ (∀ i, i < g.num_times →
        (func g a).1.back_calc i
          = (exponential (scaledParams g a) g.relax_times g.num_times).getD i 0)
    ∧ (func ((func g a).1) b).2 = (func g b).2 := by
  refine ⟨rfl, ?_, ?_⟩
  · intro i hi
    simp [func, funcState, hi]
  · rfl

/-- Witness for C1 at the spec's worked example, with parameter vectors
`[10, 0.5]` and `[1, 1]`. -/
theorem func_pipeline_witness :
    (func demoState [10, 0.5]).2
      = chi2 demoState.values demoState.sd
          (exponential (scaledParams demoState [10, 0.5]) demoState.relax_times
            demoState.num_times) demoState.num_times
    ∧ (∀ i, i < demoState.num_times →
        (func demoState [10, 0.5]).1.back_calc i
          = (exponential (scaledParams demoState [10, 0.5]) demoState.relax_times
              demoState.num_times).getD i 0)
    ∧ (func ((func demoState [10, 0.5]).1) [1, 1]).2 = (func demoState [1, 1]).2 :=
  func_pipeline demoState [10, 0.5] [1, 1]

/-- C3 (code bug): `dfunc` never produces a gradient.  For every state and
every parameter vector it falls through to `return NULL`, i.e. a Python
error, instead of the `num_params`-length vector of partial derivatives the
specification requires. -/
theorem dfunc_never_returns_gradient (g : GlobalState) (a : List ℝ) :
    dfunc g a = none :=
  rfl

/-- C7 (code bug): `d2func` returns the constant scalar `0.0` for every
state and every parameter vector, never a `num_params × num_params`
second-derivative matrix. -/
theorem d2func_returns_scalar_zero (g : GlobalState) (a : List ℝ) :
    d2func g a = PyValue.float 0 :=
  rfl

/-- Setup arguments with a zero standard deviation: `sd = [0]`. -/
def zeroSdArgs : SetupArgs :=
  { num_params := 2
    num_times := 1
    values := [10]
    sd := [0]
    relax_times := [0]
    scaling_matrix := [1, 1] }

/-- C4 (code bug): `setup` performs no validation whatsoever.  Called with
`sd = [0]` it succeeds and stores the zero standard deviation, so a later
`func` call divides by zero inside the reducer instead of construction
failing with `InvalidArgument`. -/
theorem setup_accepts_zero_sd :
    setup initState zeroSdArgs = .ok (setupState initState zeroSdArgs)
    ∧ (setupState initState zeroSdArgs).sd = [0] := by
  refine ⟨rfl, ?_⟩
  simp [setupState, zeroSdArgs, List.ofFn_succ]

/-- Setup arguments whose sequences are longer than `num_times` and
`num_params` claim: every array has a surplus element. -/
def surplusArgs : SetupArgs :=
  { num_params := 2
    num_times := 1
    values := [10, 20]
    sd := [1, 2]
    relax_times := [0, 1]
    scaling_matrix := [1, 1] }

/-- C5 (code bug): `setup` never checks sequence lengths against
`num_times`.  With `num_times = 1` and `values = [10, 20]` it succeeds and
silently ignores the surplus element, storing `values = [10]`, instead of
failing with `InvalidDimension`. -/
theorem setup_ignores_surplus_elements :
    setup initState surplusArgs = .ok (setupState initState surplusArgs)
    ∧ (setupState initState surplusArgs).values = [10]
    ∧ (setupState initState surplusArgs).num_times = 1 := by
  refine ⟨rfl, ?_, rfl⟩
  simp [setupState, surplusArgs, List.ofFn_succ]

/-- The setup arguments of the spec's worked example (§8). -/
def demoArgs : SetupArgs :=
  { num_params := 2
    num_times := 3
    values := [10, 6.07, 3.68]
    sd := [0.1, 0.1, 0.1]
    relax_times := [0, 1, 2]
    scaling_matrix := [1, 1] }

/-- C6 counterexample: `back_calc_I` called on a fresh session before any
`func` call does not fail with `NotEvaluated`; it succeeds and returns the
zero-initialised static buffer `[0, 0, 0]`. -/
theorem back_calc_I_before_evaluation_succeeds :
    back_calc_I (setupState initState demoArgs) = .ok [0, 0, 0] := by
  simp [back_calc_I, setupState, initState, demoArgs, List.ofFn_succ]

/-- C6 amended: `back_calc_I` never fails.  On a fresh process, after setup
but before any `func` call it returns `num_times` zeros (the
zero-initialised static buffer); after a `func` call it returns exactly the
`back_calc` contents written by that most recent evaluation. -/
theorem back_calc_I_amended (a : SetupArgs) (p : List ℝ) :
    back_calc_I (setupState initState a) = .ok (List.replicate a.num_times 0)
    ∧ back_calc_I ((func (setupState initState a) p).1)
        = .ok (exponential (scaledParams (setupState initState a) p)
            (setupState initState a).relax_times a.num_times) := by
  constructor
  · show Except.ok (List.ofFn fun _ : Fin a.num_times => (0 : ℝ)) = _
    rw [List.ofFn_const]
  · show Except.ok (List.ofFn fun i : Fin a.num_times =>
        (funcState (setupState initState a) p).back_calc i) = _
    congr 1
    have hlt : ∀ i : Fin a.num_times,
        (funcState (setupState initState a) p).back_calc i
          = (exponential (scaledParams (setupState initState a) p)
              (setupState initState a).relax_times a.num_times).getD i 0 := by
      intro i
      simp [funcState, setupState, i.isLt]
    calc (List.ofFn fun i : Fin a.num_times =>
            (funcState (setupState initState a) p).back_calc i)
        = List.ofFn fun i : Fin a.num_times =>
            (exponential (scaledParams (setupState initState a) p)
              (setupState initState a).relax_times a.num_times).getD i 0 := by
          congr 1
          funext i
          exact hlt i
      _ = exponential (scaledParams (setupState initState a) p)
            (setupState initState a).relax_times a.num_times :=
          ofFn_getD_eq _ _ (exponential_length _ _ _)

/-- Setup arguments of a first fitting session. -/
def sessionOneArgs : SetupArgs :=
  { num_params := 1
    num_times := 1
    values := [10]
    sd := [1]
    relax_times := [0]
    scaling_matrix := [1] }

/-- Setup arguments of a second, distinct fitting session. -/
def sessionTwoArgs : SetupArgs :=
  { num_params := 1
    num_times := 1
    values := [20]
    sd := [1]
    relax_times := [0]
    scaling_matrix := [1] }

/-- C8 (code bug): all arrays live in process-wide globals, so constructing
a second session overwrites the first.  After the two setups the global
state is exactly what the second setup alone would produce, and the first
session's `values` array has been replaced. -/
theorem second_setup_clobbers_first_session :
    setupState (setupState initState sessionOneArgs) sessionTwoArgs
      = setupState initState sessionTwoArgs
    ∧ (setupState (setupState initState sessionOneArgs) sessionTwoArgs).values
        ≠ (setupState initState sessionOneArgs).values := by
  refine ⟨rfl, ?_⟩
  simp [setupState, sessionOneArgs, sessionTwoArgs, List.ofFn_succ]

/-- C9: on a session whose arrays are consistent with `num_times` and whose
standard deviations are all nonzero, the value `func` returns is
non-negative, and it is zero exactly when the freshly written `back_calc`
buffer agrees with the observed `values` at every index. -/
theorem func_nonneg_and_zero_iff (g : GlobalState) (a : List ℝ)
    (hv : g.values.length = g.num_times)
    (hsd : ∀ i < g.num_times, g.sd.getD i 0 ≠ 0) :
    0 ≤ (func g a).2
    ∧ ((func g a).2 = 0 ↔
        ∀ i < g.num_times, (func g a).1.back_calc i = g.values.getD i 0) := by
  have hback : ∀ i, i < g.num_times →
      (func g a).1.back_calc i
        = (exponential (scaledParams g a) g.relax_times g.num_times).getD i 0 := by
    intro i hi
    simp [func, funcState, hi]
  have hval : (func g a).2
      = chi2 g.values g.sd
          (exponential (scaledParams g a) g.relax_times g.num_times) g.num_times := rfl
  constructor
  · rw [hval, chi2_eq_sum]
    exact Finset.sum_nonneg fun i _ => sq_nonneg _
  · rw [hval, chi2_eq_sum,
      Finset.sum_eq_zero_iff_of_nonneg fun i _ => sq_nonneg _]
    constructor
    · intro h i hi
      rw [hback i hi]
      have h1 := h i (Finset.mem_range.mpr hi)
      rw [sq_eq_zero_iff] at h1
      rcases div_eq_zero_iff.mp h1 with h2 | h2
      · exact (sub_eq_zero.mp h2).symm
      · exact absurd h2 (hsd i hi)
    · intro h i hi
      have hi' := Finset.mem_range.mp hi
      have hb := h i hi'
      rw [hback i hi'] at hb
      rw [hb]
      simp

/-- Witness for C9 at the spec's worked example with parameters
`[10, 0.5]`. -/
theorem func_nonneg_and_zero_iff_witness :
    0 ≤ (func demoState [10, 0.5]).2
    ∧ ((func demoState [10, 0.5]).2 = 0 ↔
        ∀ i < demoState.num_times,
          (func demoState [10, 0.5]).1.back_calc i = demoState.values.getD i 0) :=
  func_nonneg_and_zero_iff demoState [10, 0.5] rfl
    (by
      intro i hi
      have hi3 : i < 3 := hi
      interval_cases i <;> norm_num [demoState])

end

end RelaxFit
